import Mathlib

/-!
Shallow embedding of the Facebook posts scraper (src/facebook_scraper.py and
src/main.py) for checking the natural-language specification against the code.

Strings are modelled as `List Char`; Python's `str` methods and the `re`
patterns actually used by the code are implemented directly as scanning
functions on character lists.  Python `float` arithmetic is modelled with
exact rationals (the code only multiplies parsed decimals by powers of ten);
`int()` applied to a float is modelled as truncation toward zero.  Python's
process-seeded opaque `hash(str)` is modelled by a fixed deterministic hash
function (the code only relies on within-run stability of the value).
-/

namespace FB

/-- ASCII uppercase, modelling Python `str.upper` on the ASCII inputs the
scraper feeds it. -/
def asciiUpper (c : Char) : Char :=
  if 'a' ≤ c ∧ c ≤ 'z' then Char.ofNat (c.toNat - 32) else c

/-- ASCII lowercase, modelling Python `str.lower` on ASCII inputs. -/
def asciiLower (c : Char) : Char :=
  if 'A' ≤ c ∧ c ≤ 'Z' then Char.ofNat (c.toNat + 32) else c

/-- Decimal digit test (regex `\d`, Python `str.isdigit` per character). -/
def isAsciiDigit (c : Char) : Bool :=
  '0' ≤ c ∧ c ≤ '9'

/-- Whitespace class of the regex `\s` (space, tab, newline, carriage
return, vertical tab, form feed). -/
def isPySpace (c : Char) : Bool :=
  c = ' ' ∨ c = '\t' ∨ c = '\n' ∨ c = '\r' ∨ c.toNat = 11 ∨ c.toNat = 12

/-- Alphanumeric class `[A-Za-z0-9]` used by the `pfbid` pattern. -/
def isAsciiAlnum (c : Char) : Bool :=
  isAsciiDigit c ∨ ('a' ≤ c ∧ c ≤ 'z') ∨ ('A' ≤ c ∧ c ≤ 'Z')

/-- Value of a list of decimal digit characters (as read left to right). -/
def digitsToNat (ds : List Char) : Nat :=
  ds.foldl (fun n c => 10 * n + (c.toNat - 48)) 0

/-- Substring containment, modelling Python's `needle in haystack`. -/
def containsSub (needle : List Char) : List Char → Bool
  | [] => needle.isEmpty
  | c :: rest => needle.isPrefixOf (c :: rest) || containsSub needle rest

/-- Exact decimal value `num / 10 ^ scale`, the model of a Python float
produced by parsing a decimal string.  The float arithmetic the scraper
performs on such values (multiplication by powers of ten, truncation) is
exact in this representation on all the spec's inputs. -/
structure DecVal where
  num : Int
  scale : Nat
deriving DecidableEq

/-- Truncation of a decimal value toward zero, modelling Python
`int(float)`: `Int.tdiv` rounds toward zero. -/
def pyTrunc (x : DecVal) : Int :=
  x.num.tdiv ((10 : Int) ^ x.scale)

/-- Multiplication of a decimal value by an integer (the `* 1000` /
`* 1000000` / `* 1000000000` steps of the count parsers). -/
def decMul (x : DecVal) (k : Int) : DecVal :=
  ⟨x.num * k, x.scale⟩

/-- Value of an integer-part / fractional-part digit pair, e.g. the
mantissa of `"1.2"` is `12 / 10 ^ 1`. -/
def mantissaVal (ip fp : List Char) : DecVal :=
  ⟨(digitsToNat ip : Int) * (10 : Int) ^ fp.length + (digitsToNat fp : Int), fp.length⟩

/-- Application of a signed power-of-ten exponent to a mantissa. -/
def applyExp (m : DecVal) (esgn : Bool) (e : Nat) : DecVal :=
  if esgn then ⟨m.num * (10 : Int) ^ e, m.scale⟩ else ⟨m.num, m.scale + e⟩

/-- Exponent-and-rest tail of the float grammar: either the end of input or
`[Ee][+-]?digits`.  Returns the final value, `none` on a malformed tail. -/
def pyFloatTail (m : DecVal) : List Char → Option DecVal
  | [] => some m
  | e :: t =>
    if e = 'E' ∨ e = 'e' then
      let est : Bool × List Char :=
        match t with
        | '+' :: u => (true, u)
        | '-' :: u => (false, u)
        | u => (true, u)
      let ed := est.2.takeWhile isAsciiDigit
      if ed = [] ∨ est.2.drop ed.length ≠ [] then none
      else some (applyExp m est.1 (digitsToNat ed))
    else none

/-- Model of Python `float(s)` on the decimal forms the scraper can produce:
optional sign, digits with optional fractional part (at least one digit
somewhere), optional exponent.  Returns `none` where `float` raises
`ValueError`.  (Exotic accepted forms such as `"inf"`, `"nan"` or numeric
underscores never reach this code and are modelled as failures.) -/
def pyFloat (s : List Char) : Option DecVal :=
  let sg : Bool × List Char :=
    match s with
    | '+' :: t => (true, t)
    | '-' :: t => (false, t)
    | t => (true, t)
  let ip := sg.2.takeWhile isAsciiDigit
  let s2 := sg.2.drop ip.length
  let signed : DecVal → DecVal := fun m => if sg.1 then m else ⟨-m.num, m.scale⟩
  match s2 with
  | '.' :: t =>
    let fp := t.takeWhile isAsciiDigit
    if ip = [] ∧ fp = [] then none
    else (pyFloatTail (mantissaVal ip fp) (t.drop fp.length)).map signed
  | t => if ip = [] then none else (pyFloatTail (mantissaVal ip []) t).map signed

/-- First match of the regex `(\d+(?:\.\d+)?)`: the leftmost maximal digit
run, extended by a dot and a further digit run when present. -/
def firstNumSub : List Char → Option DecVal
  | [] => none
  | c :: rest =>
    if isAsciiDigit c then
      let ds := (c :: rest).takeWhile isAsciiDigit
      match (c :: rest).drop ds.length with
      | '.' :: t =>
        let fs := t.takeWhile isAsciiDigit
        if fs = [] then some (mantissaVal ds []) else some (mantissaVal ds fs)
      | _ => some (mantissaVal ds [])
    else firstNumSub rest

/-- Embedding of `FacebookPostsScraper._parse_count` (src/facebook_scraper.py
lines 1054-1079): empty input yields 0; commas and whitespace are removed and
the rest uppercased; a `K`/`M`/`B` occurrence selects a multiplier applied to
the float value of the string with that letter removed; otherwise the first
numeric substring is truncated to an integer; any parse failure yields 0. -/
def parseCount (s : List Char) : Int :=
  if s = [] then 0
  else
    let clean := (s.filter (fun c => !(c == ',' || isPySpace c))).map asciiUpper
    if clean.contains 'K' then
      match pyFloat (clean.filter (fun c => c != 'K')) with
      | some q => pyTrunc (decMul q 1000)
      | none => 0
    else if clean.contains 'M' then
      match pyFloat (clean.filter (fun c => c != 'M')) with
      | some q => pyTrunc (decMul q 1000000)
      | none => 0
    else if clean.contains 'B' then
      match pyFloat (clean.filter (fun c => c != 'B')) with
      | some q => pyTrunc (decMul q 1000000000)
      | none => 0
    else
      match firstNumSub clean with
      | some q => pyTrunc q
      | none => 0

/-- Model of Python `int(s)` as used on the cleaned count string of
src/main.py (digits only; a dot or letters raise `ValueError`). -/
def pyIntStr (s : List Char) : Option Int :=
  if s ≠ [] ∧ s.all isAsciiDigit then some (digitsToNat s : Int) else none

/-- Embedding of `EnhancedFacebookPostsScraper.parse_count` (src/main.py
lines 514-532): keeps only digits, `K`, `M`, `B` and dots; a `K`/`M`/`B`
occurrence applies the float-with-multiplier path, otherwise plain `int`;
any failure (including a leftover dot) yields 0. -/
def mainParseCount (s : List Char) : Int :=
  if s = [] then 0
  else
    let clean := s.filter (fun c => isAsciiDigit c || c == 'K' || c == 'M' || c == 'B' || c == '.')
    if clean.contains 'K' then
      match pyFloat (clean.filter (fun c => c != 'K')) with
      | some q => pyTrunc (decMul q 1000)
      | none => 0
    else if clean.contains 'M' then
      match pyFloat (clean.filter (fun c => c != 'M')) with
      | some q => pyTrunc (decMul q 1000000)
      | none => 0
    else if clean.contains 'B' then
      match pyFloat (clean.filter (fun c => c != 'B')) with
      | some q => pyTrunc (decMul q 1000000000)
      | none => 0
    else if clean = [] then 0
    else (pyIntStr clean).getD 0

/-- First match of a regex of shape `(\d+)\s*kw` (e.g. `(\d+)\s*minute`):
a maximal digit run, optional whitespace, then the literal keyword.  Returns
the numeric value of the captured digits. -/
def searchNumKw (kw : List Char) : List Char → Option Nat
  | [] => none
  | c :: rest =>
    if isAsciiDigit c then
      let ds := (c :: rest).takeWhile isAsciiDigit
      let after := ((c :: rest).drop ds.length).dropWhile isPySpace
      if kw.isPrefixOf after then some (digitsToNat ds) else searchNumKw kw rest
    else searchNumKw kw rest

/-- First defined value in a list of options (the `for pattern ... break /
else return None` loop over `strptime` formats). -/
def firstSome : List (Option Int) → Option Int
  | [] => none
  | some x :: _ => some x
  | none :: rest => firstSome rest

/-- Embedding of `FacebookPostsScraper._parse_facebook_time`
(src/facebook_scraper.py lines 1000-1052), for a fixed reference time `now`
(the code's `datetime.now()`), with datetimes modelled as seconds
(`timedelta(minutes/hours/days/weeks)` is exact naive-seconds arithmetic;
the returned formatted/unix dict fields both derive from this value).
`strp` is the oracle for `datetime.strptime(time_str, fmt)`, returning the
parsed datetime in seconds or `none` where `strptime` raises `ValueError`;
it abstracts the calendar arithmetic of the four absolute-date formats,
which the relative branches never consult. -/
def parseFacebookTime (strp : List Char → List Char → Option Int) (now : Int)
    (timeStr : List Char) : Option Int :=
  let lower := timeStr.map asciiLower
  if containsSub "just now".data lower ∨ containsSub "few seconds".data lower ∨
      containsSub "moments ago".data lower then
    some now
  else if containsSub "minute".data lower then
    some (now - ((searchNumKw "minute".data lower).getD 1 : Int) * 60)
  else if containsSub "hour".data lower then
    some (now - ((searchNumKw "hour".data lower).getD 1 : Int) * 3600)
  else if containsSub "day".data lower ∨ containsSub "yesterday".data lower then
    if containsSub "yesterday".data lower then some (now - 86400)
    else some (now - ((searchNumKw "day".data lower).getD 1 : Int) * 86400)
  else if containsSub "week".data lower then
    some (now - ((searchNumKw "week".data lower).getD 1 : Int) * 604800)
  else
    firstSome
      [strp timeStr "%B %d, %Y at %I:%M %p".data,
       strp timeStr "%B %d at %I:%M %p".data,
       strp timeStr "%m/%d/%Y".data,
       strp timeStr "%Y-%m-%d".data]

/-- Fuelled scan for `re.sub(r'[?&]__tn__=[^&]*', '', url)`: a `?` or `&`
followed by the literal `__tn__=` starts a match, which extends over the
following `[^&]*` run; scanning resumes right after the match (the `&`
that ended the run is re-examined as a potential new match start), exactly
as `re.sub` resumes after a non-overlapping match.  Each step consumes at
least one input character, so fuel `length + 1` always suffices. -/
def subTnF : Nat → List Char → List Char
  | 0, s => s
  | _ + 1, [] => []
  | f + 1, c :: rest =>
    if (c = '?' ∨ c = '&') ∧ ("__tn__=".data).isPrefixOf rest then
      subTnF f ((rest.drop 7).dropWhile (fun d => d != '&'))
    else c :: subTnF f rest

/-- Removal of all matches of `[?&]__tn__=[^&]*`, the first substitution of
`FacebookPostsScraper._normalize_facebook_url`. -/
def subTn (s : List Char) : List Char :=
  subTnF (s.length + 1) s

/-- Match of `[?&]__cft__\[[^\]]*\]=[^&]*` anchored at the head of `s`:
returns the remainder after the match, or `none` when no match starts here
(the bracket must close and be followed by `=`; the character class
`[^\]]*` cannot backtrack past `]`). -/
def matchCftAt (s : List Char) : Option (List Char) :=
  match s with
  | c :: rest =>
    if (c = '?' ∨ c = '&') ∧ ("__cft__[".data).isPrefixOf rest then
      let afterBr := rest.drop 8
      let inner := afterBr.takeWhile (fun d => d != ']')
      match afterBr.drop inner.length with
      | ']' :: '=' :: t => some (t.dropWhile (fun d => d != '&'))
      | _ => none
    else none
  | [] => none

/-- Fuelled scan for `re.sub(r'[?&]__cft__\[[^\]]*\]=[^&]*', '', url)`:
each step removes a whole match or copies one character, so fuel
`length + 1` always suffices. -/
def subCftF : Nat → List Char → List Char
  | 0, s => s
  | _ + 1, [] => []
  | f + 1, c :: rest =>
    match matchCftAt (c :: rest) with
    | some rem => subCftF f rem
    | none => c :: subCftF f rest

/-- Removal of all matches of `[?&]__cft__\[[^\]]*\]=[^&]*`, the second
substitution of `_normalize_facebook_url`. -/
def subCft (s : List Char) : List Char :=
  subCftF (s.length + 1) s

/-- The canonical domain the scraper resolves relative paths against. -/
def fbDomain : List Char :=
  "https://www.facebook.com".data

/-- Embedding of `FacebookPostsScraper._normalize_facebook_url`
(src/facebook_scraper.py lines 987-998): empty input is returned as is, a
leading `/` is resolved against the canonical domain, then the `__tn__`
and `__cft__[...]` tracking parameters are stripped in that order. -/
def normalizeFacebookUrl (url : List Char) : List Char :=
  if url = [] then url
  else
    let u2 := if url.head? = some '/' then fbDomain ++ url else url
    subCft (subTn u2)

/-- First match of a regex of shape `lit(run+)`: the leftmost occurrence of
the literal `lit` that is immediately followed by at least one character in
the class `p`; returns the maximal (greedy) captured run.  Occurrences of
the literal followed by no class character are skipped, as the regex engine
resumes the search at the next position. -/
def searchLitRun (lit : List Char) (p : Char → Bool) : List Char → Option (List Char)
  | [] => none
  | c :: rest =>
    if lit.isPrefixOf (c :: rest) ∧ ((c :: rest).drop lit.length).takeWhile p ≠ [] then
      some (((c :: rest).drop lit.length).takeWhile p)
    else searchLitRun lit p rest

/-- First match of `facebook\.com/pages/[^/]+/(\d+)`: the literal, a
nonempty run without `/` (which cannot backtrack past the slash), a `/`,
then the captured digits. -/
def searchPagesId : List Char → Option (List Char)
  | [] => none
  | c :: rest =>
    if ("facebook.com/pages/".data).isPrefixOf (c :: rest) then
      let after := (c :: rest).drop 19
      let nm := after.takeWhile (fun d => d != '/')
      match nm, after.drop nm.length with
      | _ :: _, '/' :: t =>
        let ds := t.takeWhile isAsciiDigit
        if ds ≠ [] then some ds else searchPagesId rest
      | _, _ => searchPagesId rest
    else searchPagesId rest

/-- Search for `story_fbid=(\d+)` reachable through `.*?` (which cannot
cross a newline) in `/story\.php.*?story_fbid=(\d+)`. -/
def searchFbidNoNl : List Char → Option (List Char)
  | [] => none
  | c :: rest =>
    if ("story_fbid=".data).isPrefixOf (c :: rest) ∧
        ((c :: rest).drop 11).takeWhile isAsciiDigit ≠ [] then
      some (((c :: rest).drop 11).takeWhile isAsciiDigit)
    else if c = '\n' then none
    else searchFbidNoNl rest

/-- First match of `/story\.php.*?story_fbid=(\d+)`.  (Unreachable in the
pattern list of `_extract_id_from_url`: any URL it matches was already
matched by `story_fbid=(\d+)` two patterns earlier; modelled for
faithfulness.) -/
def searchStoryPhp : List Char → Option (List Char)
  | [] => none
  | c :: rest =>
    if ("/story.php".data).isPrefixOf (c :: rest) then
      match searchFbidNoNl ((c :: rest).drop 10) with
      | some ds => some ds
      | none => searchStoryPhp rest
    else searchStoryPhp rest

/-- Deterministic model of CPython's process-seeded `hash(str)`.  The code
uses the hash only to derive a synthetic id that is stable within a run
(the spec flags the absence of any cross-run guarantee), so any fixed
function is a faithful model of one run. -/
def pyHash (s : List Char) : Int :=
  Int.ofNat (s.foldl (fun h c => (h * 1000003 + c.toNat) % 2305843009213693951) 5381)

/-- Fuelled most-significant-first decimal digits of a natural number;
fuel 64 covers every value `pyHash` can produce. -/
def natDigitsF : Nat → Nat → List Char → List Char
  | 0, _, acc => acc
  | f + 1, n, acc =>
    if n < 10 then Char.ofNat (48 + n) :: acc
    else natDigitsF f (n / 10) (Char.ofNat (48 + n % 10) :: acc)

/-- Decimal representation of a natural number, modelling Python `str` on
the absolute value of a hash. -/
def natRepr (n : Nat) : List Char :=
  natDigitsF 64 n []

/-- Python slice `s[-10:]`: the last ten characters (the whole string when
shorter). -/
def lastTen (s : List Char) : List Char :=
  s.drop (s.length - 10)

/-- The synthetic id `str(abs(hash(url)))[-10:]` used when no id pattern
matches a post URL. -/
def syntheticId (url : List Char) : List Char :=
  lastTen (natRepr (pyHash url).natAbs)

/-- The two id kinds of `_extract_id_from_url`. -/
inductive IdType
  | post
  | page
deriving DecidableEq

/-- Post-processing of a page-pattern capture: pure digits are returned;
other captures are returned unless they contain `posts`, `story` or
`permalink`; otherwise the pattern loop continues. -/
def pageIdCheck (pid : List Char) : Option (List Char) :=
  if pid ≠ [] ∧ pid.all isAsciiDigit then some pid
  else if ¬ (containsSub "posts".data pid ∨ containsSub "story".data pid ∨
      containsSub "permalink".data pid) then some pid
  else none

/-- Embedding of `FacebookPostsScraper._extract_id_from_url`
(src/facebook_scraper.py lines 942-985).  Post ids: the ordered patterns
`/posts/(\d+)`, `/permalink/(\d+)`, `story_fbid=(\d+)`,
`pfbid([A-Za-z0-9]+)`, `/story\.php.*?story_fbid=(\d+)`, first match
winning (`group(1)` when it is all digits, else `group(0)`), then the
synthetic hash id.  Page ids: the ordered patterns `facebook\.com/(\d+)`,
`facebook\.com/pages/[^/]+/(\d+)`, `id=(\d+)`, `facebook\.com/([^/?]+)`
with the digits-or-no-keyword check, falling through to `none`. -/
def extractIdFromUrl (url : List Char) (t : IdType) : Option (List Char) :=
  if url = [] then none
  else
    match t with
    | IdType.post =>
      match searchLitRun "/posts/".data isAsciiDigit url with
      | some ds => some ds
      | none =>
        match searchLitRun "/permalink/".data isAsciiDigit url with
        | some ds => some ds
        | none =>
          match searchLitRun "story_fbid=".data isAsciiDigit url with
          | some ds => some ds
          | none =>
            match searchLitRun "pfbid".data isAsciiAlnum url with
            | some run =>
              if run ≠ [] ∧ run.all isAsciiDigit then some run
              else some ("pfbid".data ++ run)
            | none =>
              match searchStoryPhp url with
              | some ds => some ds
              | none => some (syntheticId url)
    | IdType.page =>
      match (searchLitRun "facebook.com/".data isAsciiDigit url).bind pageIdCheck with
      | some r => some r
      | none =>
        match (searchPagesId url).bind pageIdCheck with
        | some r => some r
        | none =>
          match (searchLitRun "id=".data isAsciiDigit url).bind pageIdCheck with
          | some r => some r
          | none =>
            (searchLitRun "facebook.com/".data (fun c => !(c == '/' || c == '?')) url).bind
              pageIdCheck

/-- The id the scraper derives for a post link: normalization followed by
post-id extraction, the composition checked by the URL canonicalization
property. -/
def canonicalPostId (href : List Char) : Option (List Char) :=
  extractIdFromUrl (normalizeFacebookUrl href) IdType.post

/-- The record dict built by `FacebookPostsScraper._extract_single_post`,
field for field (`topLevelUrl`, `facebookId` and `postFacebookId` duplicate
`url`, `pageId` and `postId` in the source and are kept as such). -/
structure Post where
  facebookUrl : Option (List Char) := none
  pageId : Option (List Char) := none
  postId : List Char := []
  pageName : Option (List Char) := none
  url : List Char := []
  time : Option (List Char) := none
  timestamp : Option Int := none
  likes : Int := 0
  comments : Int := 0
  shares : Int := 0
  text : Option (List Char) := none
  link : Option (List Char) := none
  thumb : Option (List Char) := none
  topLevelUrl : List Char := []
  facebookId : Option (List Char) := none
  postFacebookId : List Char := []
deriving DecidableEq

/-- The data a rendered post element supplies to `_extract_single_post`.
The href lists are what the element's link queries return in document
order; the remaining fields are the values of the purely DOM-reading
helpers (`_extract_post_text`, `_extract_timestamp`,
`_extract_engagement_metrics`, `_extract_media`, the author-name
selectors), which inspect rendered content only and are modelled as
element data. -/
structure RawElement where
  postLinks : List (List Char) := []
  fallbackLinks : List (List Char) := []
  pageLinks : List (List Char) := []
  pageLinkText : Option (List Char) := none
  authorName : Option (List Char) := none
  text : Option (List Char) := none
  tsFormatted : Option (List Char) := none
  tsUnix : Option Int := none
  likes : Int := 0
  comments : Int := 0
  shares : Int := 0
  thumb : Option (List Char) := none
  link : Option (List Char) := none
deriving DecidableEq

/-- Embedding of `FacebookPostsScraper._get_post_url`: the first truthy
href containing one of the post indicators, normalized. -/
def getPostUrl (links : List (List Char)) : Option (List Char) :=
  match links.find? (fun h => !h.isEmpty &&
      (containsSub "posts".data h || containsSub "permalink".data h ||
       containsSub "story.php".data h || containsSub "story_fbid".data h ||
       containsSub "pfbid".data h)) with
  | some h => some (normalizeFacebookUrl h)
  | none => none

/-- Embedding of `FacebookPostsScraper._find_page_link`'s href filtering:
the first truthy href on `facebook.com` containing none of `posts`,
`story.php`, `permalink`. -/
def findPageLinkHref (links : List (List Char)) : Option (List Char) :=
  links.find? (fun h => !h.isEmpty && containsSub "facebook.com".data h &&
    !(containsSub "posts".data h || containsSub "story.php".data h ||
      containsSub "permalink".data h))

/-- The post-URL discovery of `_extract_single_post`: `_get_post_url`,
then the fallback link scan over `posts`/`story`/`permalink` indicators. -/
def discoverPostUrl (e : RawElement) : Option (List Char) :=
  match getPostUrl e.postLinks with
  | some u => some u
  | none =>
    match e.fallbackLinks.find? (fun h => !h.isEmpty &&
        (containsSub "posts".data h || containsSub "story".data h ||
         containsSub "permalink".data h)) with
    | some h => some (normalizeFacebookUrl h)
    | none => none

/-- The post id assignment of `_extract_single_post`: the extractor's id,
falling back to `str(hash(post_url))[-10:]` when that id is falsy. -/
def derivePostId (postUrl : List Char) : List Char :=
  match extractIdFromUrl postUrl IdType.post with
  | some i => if i = [] then lastTen (natRepr (pyHash postUrl).natAbs) else i
  | none => lastTen (natRepr (pyHash postUrl).natAbs)

/-- Embedding of `FacebookPostsScraper._extract_single_post`
(src/facebook_scraper.py lines 585-659): a falsy discovered URL drops the
element; the post id comes from `derivePostId`; the page link yields
`facebookUrl`/`pageId`; the page name is the page-link text, or the
author-selector fallback when it equals `"Unknown"` (the value used when
no page link exists). -/
def extractSinglePost (e : RawElement) : Option Post :=
  match discoverPostUrl e with
  | none => none
  | some [] => none
  | some postUrl =>
    let postId := derivePostId postUrl
    let pageUrl := (findPageLinkHref e.pageLinks).map normalizeFacebookUrl
    let pageId :=
      match pageUrl with
      | some u => extractIdFromUrl u IdType.page
      | none => none
    let pageName0 : Option (List Char) :=
      match findPageLinkHref e.pageLinks with
      | some _ => e.pageLinkText
      | none => some "Unknown".data
    let pageName :=
      if pageName0 = some "Unknown".data then
        match e.authorName with
        | some t => some t
        | none => some "Unknown".data
      else pageName0
    some
      { facebookUrl := pageUrl
        pageId := pageId
        postId := postId
        pageName := pageName
        url := postUrl
        time := e.tsFormatted
        timestamp := e.tsUnix
        likes := e.likes
        comments := e.comments
        shares := e.shares
        text := e.text
        link := e.link
        thumb := e.thumb
        topLevelUrl := postUrl
        facebookId := pageId
        postFacebookId := postId }

/-- The per-element loop of `_extract_posts_from_page`: each element is
extracted in isolation (an exception there skips the element, which the
`Option` result already covers) and only records with a truthy `postId`
are kept. -/
def extractRecords (els : List RawElement) : List Post :=
  els.filterMap (fun e =>
    match extractSinglePost e with
    | some p => if p.postId ≠ [] then some p else none
    | none => none)

/-- The selector cascade of `_extract_posts_from_page`
(src/facebook_scraper.py lines 526-583): each strategy either raises
(`Except.error`) or returns its element list; the first strategy with a
nonempty element list wins, errors and empty results fall through, and a
fully failed cascade contributes no elements. -/
def pickElements : List (Except Unit (List RawElement)) → List RawElement
  | [] => []
  | Except.error _ :: rest => pickElements rest
  | Except.ok [] :: rest => pickElements rest
  | Except.ok (e :: es) :: _ => e :: es

/-- Embedding of `FacebookPostsScraper._extract_posts_from_page`: the
winning strategy's elements are extracted one by one; with no elements the
pass yields `[]` (as does the enclosing exception handler). -/
def extractPostsFromPage (strats : List (Except Unit (List RawElement))) : List Post :=
  extractRecords (pickElements strats)

/-- The per-pass deduplication of `_scrape_posts`: records with a truthy
`postId` not yet in the seen set are kept, and their ids are added to the
set as the pass proceeds (so an id repeated inside one pass is also
dropped).  The Python `set` is modelled by the list of its members. -/
def scrapePass (seen : List (List Char)) : List Post → List Post × List (List Char)
  | [] => ([], seen)
  | p :: rest =>
    if p.postId ≠ [] ∧ ¬ p.postId ∈ seen then
      let r := scrapePass (p.postId :: seen) rest
      (p :: r.1, r.2)
    else scrapePass seen rest

/-- Fuelled embedding of the `while` loop of
`FacebookPostsScraper._scrape_posts` (src/facebook_scraper.py lines
487-524).  `beh` gives the records each extraction pass produces (the page
behaviour behind scrolling, indexed by pass number); the loop runs while
fewer than `maxPosts` records are collected and fewer than 5 consecutive
passes added nothing, resetting the empty-pass counter on any productive
pass.  The fuel only bounds the iteration count; the termination theorem
shows the fuel used by `scrapePosts` always suffices, so `none` never
reaches a caller and the unbounded source loop is modelled faithfully. -/
def scrapeLoopF (beh : Nat → List Post) (maxPosts : Nat) :
    Nat → Nat → List Post → List (List Char) → Nat →
    Option (List Post × List (List Char))
  | 0, _, _, _, _ => none
  | fuel + 1, k, posts, seen, noNew =>
    if posts.length < maxPosts ∧ noNew < 5 then
      let pr := scrapePass seen (beh k)
      if pr.1 = [] then scrapeLoopF beh maxPosts fuel (k + 1) posts pr.2 (noNew + 1)
      else scrapeLoopF beh maxPosts fuel (k + 1) (posts ++ pr.1) pr.2 0
    else some (posts, seen)

/-- Embedding of `_scrape_posts`: the loop starting from the instance's
current seen-id set and an empty result list, with the final
`posts[:max_posts]` truncation.  Returns the truncated records and the
final seen set (the mutated `self.scraped_post_ids`). -/
def scrapePosts (beh : Nat → List Post) (maxPosts : Nat) (seen₀ : List (List Char)) :
    Option (List Post × List (List Char)) :=
  (scrapeLoopF beh maxPosts (6 * maxPosts + 6) 0 [] seen₀ 0).map
    (fun r => (r.1.take maxPosts, r.2))

/-- Outcome of one `page.goto` + body-text read in `_navigate_to_page`:
either the rendered body text or a raised exception. -/
inductive GotoResult
  | text (s : List Char)
  | exn
deriving DecidableEq

/-- The six (attempt, variant) pairs tried by `_navigate_to_page`: three
retries over the two URL variants (canonical and `m.facebook.com`). -/
def navPairs : List (Nat × Nat) :=
  [(0, 0), (0, 1), (1, 0), (1, 1), (2, 0), (2, 1)]

/-- The nested retry loops of `FacebookPostsScraper._navigate_to_page`
(src/facebook_scraper.py lines 396-426) over a page behaviour `nav`
indexed by (attempt, variant): an attempt returns successfully when the
body text is truthy and longer than 100 characters; an exception is
re-raised only on the last attempt of the last variant, otherwise the loop
moves on; when every attempt merely fails the length check the loops fall
through and the function returns normally. -/
def navigateGo (nav : Nat → Nat → GotoResult) : List (Nat × Nat) → Except Unit Unit
  | [] => Except.ok ()
  | (a, i) :: rest =>
    match nav a i with
    | GotoResult.text s =>
      if s ≠ [] ∧ s.length > 100 then Except.ok () else navigateGo nav rest
    | GotoResult.exn =>
      if a = 2 ∧ i = 1 then Except.error () else navigateGo nav rest

/-- Embedding of `_navigate_to_page` over the six attempt/variant pairs. -/
def navigateToPage (nav : Nat → Nat → GotoResult) : Except Unit Unit :=
  navigateGo nav navPairs

/-- Embedding of the post-scraping path of `FacebookPostsScraper.search_posts`
(src/facebook_scraper.py lines 221-278): a navigation error is logged and
re-raised (after the `finally` cleanup), so the caller receives the bare
exception and no records; on successful navigation the scraping loop's
result is returned. -/
def searchPosts (nav : Nat → Nat → GotoResult) (beh : Nat → List Post)
    (maxPosts : Nat) (seen₀ : List (List Char)) :
    Except Unit (Option (List Post × List (List Char))) :=
  match navigateToPage nav with
  | Except.error e => Except.error e
  | Except.ok _ => Except.ok (scrapePosts beh maxPosts seen₀)

/-! Concrete values used to instantiate theorems with hypotheses. -/

/-- A record with id `1`. -/
def p1 : Post := { postId := "1".data, url := "u1".data }

/-- A record with id `2`. -/
def p2 : Post := { postId := "2".data, url := "u2".data }

/-- A record with id `3`. -/
def p3 : Post := { postId := "3".data, url := "u3".data }

/-- An element whose only link is a clean post permalink. -/
def elemW : RawElement := { postLinks := ["https://www.facebook.com/a/posts/77".data] }

/-- The record `extractSinglePost` produces from `elemW`. -/
def postW : Post :=
  { postId := "77".data, pageName := some "Unknown".data,
    url := "https://www.facebook.com/a/posts/77".data,
    topLevelUrl := "https://www.facebook.com/a/posts/77".data,
    postFacebookId := "77".data }

/-! Lemmas about the per-pass deduplication. -/

/-- The seen set only grows across a pass. -/
theorem scrapePass_seen_sub : ∀ (l : List Post) (seen : List (List Char)) (x : List Char),
    x ∈ seen → x ∈ (scrapePass seen l).2 := by
  intro l
  induction l with
  | nil => intro seen x hx; simpa [scrapePass] using hx
  | cons p rest ih =>
    intro seen x hx
    by_cases h : p.postId ≠ [] ∧ ¬ p.postId ∈ seen
    · simpa [scrapePass, h] using ih (p.postId :: seen) x (List.mem_cons_of_mem _ hx)
    · simpa [scrapePass, h] using ih seen x hx

/-- Every record a pass keeps has a truthy id that was not yet seen and is
recorded in the updated seen set. -/
theorem scrapePass_mem : ∀ (l : List Post) (seen : List (List Char)) (p : Post),
    p ∈ (scrapePass seen l).1 →
    p.postId ∈ (scrapePass seen l).2 ∧ ¬ p.postId ∈ seen ∧ p.postId ≠ [] := by
  intro l
  induction l with
  | nil => intro seen p hp; simp [scrapePass] at hp
  | cons q rest ih =>
    intro seen p hp
    by_cases h : q.postId ≠ [] ∧ ¬ q.postId ∈ seen
    · rw [scrapePass] at hp ⊢
      rw [if_pos h] at hp ⊢
      rcases List.mem_cons.mp hp with rfl | hp'
      · exact ⟨scrapePass_seen_sub rest _ _ (List.mem_cons_self _ _), h.2, h.1⟩
      · have := ih (q.postId :: seen) p hp'
        exact ⟨this.1, fun hc => this.2.1 (List.mem_cons_of_mem _ hc), this.2.2⟩
    · rw [scrapePass] at hp ⊢
      rw [if_neg h] at hp ⊢
      exact ih seen p hp

/-- No two records kept by one pass share an id. -/
theorem scrapePass_pairwise : ∀ (l : List Post) (seen : List (List Char)),
    ((scrapePass seen l).1).Pairwise (fun a b => a.postId ≠ b.postId) := by
  intro l
  induction l with
  | nil => intro seen; simp [scrapePass]
  | cons q rest ih =>
    intro seen
    by_cases h : q.postId ≠ [] ∧ ¬ q.postId ∈ seen
    · rw [scrapePass, if_pos h]
      refine List.Pairwise.cons ?_ (ih (q.postId :: seen))
      intro b hb
      have := (scrapePass_mem rest (q.postId :: seen) b hb).2.1
      intro hc
      exact this (by rw [← hc]; exact List.mem_cons_self _ _)
    · rw [scrapePass, if_neg h]
      exact ih seen

/-! Lemmas about the pagination loop. -/

/-- Fuel bound: the loop halts within `(maxPosts − |posts|)·6 + (5 − noNew)`
further iterations, since a productive pass shrinks the first summand and an
empty pass shrinks the second. -/
theorem scrapeLoopF_total (beh : Nat → List Post) (maxPosts : Nat) :
    ∀ (fuel k : Nat) (posts : List Post) (seen : List (List Char)) (noNew : Nat),
      (maxPosts - posts.length) * 6 + (5 - noNew) < fuel →
      (scrapeLoopF beh maxPosts fuel k posts seen noNew).isSome = true := by
  intro fuel
  induction fuel with
  | zero => intro _ _ _ _ h; omega
  | succ fuel ih =>
    intro k posts seen noNew hlt
    rw [scrapeLoopF]
    by_cases hg : posts.length < maxPosts ∧ noNew < 5
    · rw [if_pos hg]
      by_cases he : (scrapePass seen (beh k)).1 = []
      · rw [if_pos he]
        apply ih
        omega
      · rw [if_neg he]
        apply ih
        have h1 : 1 ≤ (scrapePass seen (beh k)).1.length := List.length_pos.mpr he
        rw [List.length_append]
        omega
    · rw [if_neg hg]
      simp

/-- Invariant carried by the loop: pairwise distinct ids, ids recorded in
the seen set, monotone seen set, and every new record's id absent from the
initial seen set. -/
theorem scrapeLoopF_inv (beh : Nat → List Post) (maxPosts : Nat) :
    ∀ (fuel k : Nat) (posts : List Post) (seen : List (List Char)) (noNew : Nat)
      (res : List Post) (seen' : List (List Char)),
      scrapeLoopF beh maxPosts fuel k posts seen noNew = some (res, seen') →
      (∀ p ∈ posts, p.postId ∈ seen) →
      posts.Pairwise (fun a b => a.postId ≠ b.postId) →
      res.Pairwise (fun a b => a.postId ≠ b.postId) ∧
        (∀ p ∈ res, p.postId ∈ seen') ∧
        (∀ x ∈ seen, x ∈ seen') ∧
        (∀ p ∈ res, p ∈ posts ∨ ¬ p.postId ∈ seen) := by
  intro fuel
  induction fuel with
  | zero => intro k posts seen noNew res seen' h; simp [scrapeLoopF] at h
  | succ fuel ih =>
    intro k posts seen noNew res seen' h hmem hpw
    rw [scrapeLoopF] at h
    by_cases hg : posts.length < maxPosts ∧ noNew < 5
    · rw [if_pos hg] at h
      by_cases he : (scrapePass seen (beh k)).1 = []
      · rw [if_pos he] at h
        have hmem2 : ∀ p ∈ posts, p.postId ∈ (scrapePass seen (beh k)).2 :=
          fun p hp => scrapePass_seen_sub (beh k) seen _ (hmem p hp)
        obtain ⟨c1, c2, c3, c4⟩ := ih (k + 1) posts _ (noNew + 1) res seen' h hmem2 hpw
        refine ⟨c1, c2, ?_, ?_⟩
        · exact fun x hx => c3 x (scrapePass_seen_sub (beh k) seen x hx)
        · intro p hp
          rcases c4 p hp with hin | hnot
          · exact Or.inl hin
          · exact Or.inr fun hc => hnot (scrapePass_seen_sub (beh k) seen _ hc)
      · rw [if_neg he] at h
        have hmem2 : ∀ p ∈ posts ++ (scrapePass seen (beh k)).1,
            p.postId ∈ (scrapePass seen (beh k)).2 := by
          intro p hp
          rcases List.mem_append.mp hp with hp' | hp'
          · exact scrapePass_seen_sub (beh k) seen _ (hmem p hp')
          · exact (scrapePass_mem (beh k) seen p hp').1
        have hpw2 : (posts ++ (scrapePass seen (beh k)).1).Pairwise
            (fun a b => a.postId ≠ b.postId) := by
          rw [List.pairwise_append]
          refine ⟨hpw, scrapePass_pairwise (beh k) seen, ?_⟩
          intro a ha b hb hc
          have hbs := (scrapePass_mem (beh k) seen b hb).2.1
          exact hbs (hc ▸ hmem a ha)
        obtain ⟨c1, c2, c3, c4⟩ := ih (k + 1) _ _ 0 res seen' h hmem2 hpw2
        refine ⟨c1, c2, ?_, ?_⟩
        · exact fun x hx => c3 x (scrapePass_seen_sub (beh k) seen x hx)
        · intro p hp
          rcases c4 p hp with hin | hnot
          · rcases List.mem_append.mp hin with hp' | hp'
            · exact Or.inl hp'
            · exact Or.inr (scrapePass_mem (beh k) seen p hp').2.1
          · exact Or.inr fun hc => hnot (scrapePass_seen_sub (beh k) seen _ hc)
    · rw [if_neg hg] at h
      obtain ⟨rfl, rfl⟩ : posts = res ∧ seen = seen' := by
        have := Option.some.inj h
        exact ⟨(Prod.mk.injEq _ _ _ _ ▸ this).1, (Prod.mk.injEq _ _ _ _ ▸ this).2⟩
      exact ⟨hpw, hmem, fun x hx => hx, fun p hp => Or.inl hp⟩

/-- Unpacking of a successful `scrapePosts` run into the underlying loop
result: the returned records are the truncation of the loop's records and
the seen set is the loop's seen set. -/
theorem scrapePosts_eq (beh : Nat → List Post) (maxPosts : Nat) (seen₀ : List (List Char))
    (res : List Post) (seen' : List (List Char))
    (h : scrapePosts beh maxPosts seen₀ = some (res, seen')) :
    ∃ full, scrapeLoopF beh maxPosts (6 * maxPosts + 6) 0 [] seen₀ 0 = some (full, seen') ∧
      res = full.take maxPosts := by
  rw [scrapePosts] at h
  cases hr : scrapeLoopF beh maxPosts (6 * maxPosts + 6) 0 [] seen₀ 0 with
  | none => rw [hr] at h; simp at h
  | some r =>
    rw [hr] at h
    simp only [Option.map_some'] at h
    have h2 := Option.some.inj h
    have hres : r.1.take maxPosts = res := (Prod.mk.injEq _ _ _ _ ▸ h2).1
    have hseen : r.2 = seen' := (Prod.mk.injEq _ _ _ _ ▸ h2).2
    refine ⟨r.1, ?_, hres.symm⟩
    rw [← hseen]

/-- Skipping of failed and empty strategies by the selector cascade. -/
theorem pickElements_skip : ∀ (pre rest : List (Except Unit (List RawElement))),
    (∀ s ∈ pre, s = Except.error () ∨ s = Except.ok []) →
    pickElements (pre ++ rest) = pickElements rest := by
  intro pre
  induction pre with
  | nil => intro rest _; rfl
  | cons s pre ih =>
    intro rest hp
    have hrec := ih rest (fun t ht => hp t (List.mem_cons_of_mem _ ht))
    rcases hp s (List.mem_cons_self _ _) with rfl | rfl
    · simpa [pickElements] using hrec
    · simpa [pickElements] using hrec

/-- C1: within one run of the scraping loop, no two records in the final
returned list share the same `postId` fingerprint: a record whose id is
already in the seen set is discarded before being appended, so the result
is pairwise distinct on ids. -/
theorem C1_dedup_unique (beh : Nat → List Post) (maxPosts : Nat) (seen₀ : List (List Char))
    (res : List Post) (seen' : List (List Char))
    (h : scrapePosts beh maxPosts seen₀ = some (res, seen')) :
    res.Pairwise (fun a b => a.postId ≠ b.postId) := by
  obtain ⟨full, hfull, rfl⟩ := scrapePosts_eq beh maxPosts seen₀ res seen' h
  have inv := scrapeLoopF_inv beh maxPosts (6 * maxPosts + 6) 0 [] seen₀ 0 full seen' hfull
    (by simp) (by simp)
  exact inv.1.sublist (List.take_sublist _ _)

/-- Witness for C1 at a page behaviour that repeats record id `1`. -/
theorem C1_dedup_unique_w :
    ([p1, p2]).Pairwise (fun a b => a.postId ≠ b.postId) :=
  C1_dedup_unique (fun _ => [p1, p1, p2]) 2 [] [p1, p2] ["2".data, "1".data] (by decide)

/-- C2: the pagination loop terminates for every `maxResults` and every
page behaviour — fuel `6·maxResults + 6` always suffices, since at most 5
consecutive empty passes (and at most `maxResults` productive ones, each
resetting the empty-pass counter) can occur; in particular with
`maxResults = 1000` and only 3 unique records on the page the run returns
exactly those 3 records. -/
theorem C2_loop_terminates :
    (∀ (beh : Nat → List Post) (maxPosts : Nat) (seen₀ : List (List Char)),
        (scrapeLoopF beh maxPosts (6 * maxPosts + 6) 0 [] seen₀ 0).isSome = true) ∧
      scrapePosts (fun _ => [p1, p2, p3]) 1000 [] =
        some ([p1, p2, p3], ["3".data, "2".data, "1".data]) := by
  constructor
  · intro beh maxPosts seen₀
    apply scrapeLoopF_total
    simp only [List.length_nil]
    omega
  · decide

/-- C3: on every exit path of the pagination loop the returned record list
has length at most `maxResults` — the accumulated records are truncated to
`maxResults` before being returned. -/
theorem C3_result_truncated (beh : Nat → List Post) (maxPosts : Nat)
    (seen₀ : List (List Char)) (res : List Post) (seen' : List (List Char))
    (h : scrapePosts beh maxPosts seen₀ = some (res, seen')) :
    res.length ≤ maxPosts := by
  obtain ⟨full, _, rfl⟩ := scrapePosts_eq beh maxPosts seen₀ res seen' h
  rw [List.length_take]
  exact min_le_left _ _

/-- Witness for C3 at a behaviour producing 3 records per pass with
`maxResults = 2`. -/
theorem C3_result_truncated_w : ([p1, p2] : List Post).length ≤ 2 :=
  C3_result_truncated (fun _ => [p1, p2, p3]) 2 [] [p1, p2] ["3".data, "2".data, "1".data]
    (by decide)

/-- C6 counterexample: when every navigation attempt loads a too-short body
(the failure mode of the success criterion), all variants and retries are
exhausted yet `_navigate_to_page` falls through its loops and returns
normally instead of raising a navigation-exhausted error, and the run
proceeds; so exhaustion does not always raise, contradicting the claim. -/
theorem C6_nav_cex :
    navigateToPage (fun _ _ => GotoResult.text "short".data) = Except.ok () ∧
      searchPosts (fun _ _ => GotoResult.text "short".data) (fun _ => []) 10 [] =
        Except.ok (some ([], [])) :=
  ⟨rfl, rfl⟩

/-- C6 amended: navigation raises only when the final retry of the final
URL variant itself raises; attempts that fail the body-length check fall
through silently.  When every attempt raises, the error propagates and
`search_posts` re-raises it after cleanup, so the caller receives a bare
error with no accumulated records — partial results are not returned. -/
theorem C6_nav_raise (nav : Nat → Nat → GotoResult) (h : ∀ a i, nav a i = GotoResult.exn)
    (beh : Nat → List Post) (m : Nat) (seen₀ : List (List Char)) :
    navigateToPage nav = Except.error () ∧ searchPosts nav beh m seen₀ = Except.error () := by
  have hn : navigateToPage nav = Except.error () := by
    simp [navigateToPage, navPairs, navigateGo, h]
  exact ⟨hn, by rw [searchPosts, hn]⟩

/-- Witness for the amended C6 at the always-raising page behaviour. -/
theorem C6_nav_raise_w :
    navigateToPage (fun _ _ => GotoResult.exn) = Except.error () ∧
      searchPosts (fun _ _ => GotoResult.exn) (fun _ => []) 1 [] = Except.error () :=
  C6_nav_raise (fun _ _ => GotoResult.exn) (fun _ _ => rfl) (fun _ => []) 1 []

/-- C7: the extraction cascade tries its strategies in order; the first
strategy yielding a nonempty element set wins and its records are used
exclusively (later strategies are ignored); a strategy that raises or
returns nothing is skipped; and when every strategy raises or returns
nothing the pass yields the empty record set instead of aborting. -/
theorem C7_cascade (pre rest strats : List (Except Unit (List RawElement)))
    (els : List RawElement)
    (hpre : ∀ s ∈ pre, s = Except.error () ∨ s = Except.ok [])
    (hne : els ≠ [])
    (hs : ∀ s ∈ strats, s = Except.error () ∨ s = Except.ok []) :
    extractPostsFromPage (pre ++ Except.ok els :: rest) = extractRecords els ∧
      extractPostsFromPage strats = [] := by
  constructor
  · rw [extractPostsFromPage, pickElements_skip pre _ hpre]
    cases els with
    | nil => exact absurd rfl hne
    | cons e es => rfl
  · rw [extractPostsFromPage]
    have hnil : pickElements strats = [] := by
      have := pickElements_skip strats [] hs
      simpa using this
    rw [hnil]
    rfl

/-- Witness for C7: a raising strategy and an empty strategy are skipped in
favour of the third, whose trailing successor is ignored. -/
theorem C7_cascade_w :
    extractPostsFromPage
        ([Except.error (), Except.ok []] ++ Except.ok [elemW] :: [Except.ok []]) =
        extractRecords [elemW] ∧
      extractPostsFromPage [Except.error (), Except.ok [], Except.error ()] = [] := by
  refine C7_cascade [Except.error (), Except.ok []] [Except.ok []]
    [Except.error (), Except.ok [], Except.error ()] [elemW] ?_ ?_ ?_
  · intro s hs
    rcases List.mem_cons.mp hs with rfl | hs
    · exact Or.inl rfl
    rcases List.mem_cons.mp hs with rfl | hs
    · exact Or.inr rfl
    · simp at hs
  · simp
  · intro s hs
    rcases List.mem_cons.mp hs with rfl | hs
    · exact Or.inl rfl
    rcases List.mem_cons.mp hs with rfl | hs
    · exact Or.inr rfl
    rcases List.mem_cons.mp hs with rfl | hs
    · exact Or.inl rfl
    · simp at hs

/-- C10: the seen-id set lives on the scraper instance and is never
cleared, so deduplication extends across calls: when `search_posts`
completes twice on one instance (the second call starting from the seen
set the first call left behind), no record of the second call shares a
`postId` with any record of the first. -/
theorem C10_cross_call_dedup (nav₁ nav₂ : Nat → Nat → GotoResult)
    (beh₁ beh₂ : Nat → List Post) (m₁ m₂ : Nat)
    (r₁ : List Post) (s₁ : List (List Char)) (r₂ : List Post) (s₂ : List (List Char))
    (h1 : searchPosts nav₁ beh₁ m₁ [] = Except.ok (some (r₁, s₁)))
    (h2 : searchPosts nav₂ beh₂ m₂ s₁ = Except.ok (some (r₂, s₂)))
    (p q : Post) (hp : p ∈ r₁) (hq : q ∈ r₂) : p.postId ≠ q.postId := by
  have g1 : scrapePosts beh₁ m₁ [] = some (r₁, s₁) := by
    rw [searchPosts] at h1
    cases hn : navigateToPage nav₁ <;> rw [hn] at h1
    · exact absurd h1 (by simp)
    · exact Except.ok.inj h1
  have g2 : scrapePosts beh₂ m₂ s₁ = some (r₂, s₂) := by
    rw [searchPosts] at h2
    cases hn : navigateToPage nav₂ <;> rw [hn] at h2
    · exact absurd h2 (by simp)
    · exact Except.ok.inj h2
  obtain ⟨full₁, hf1, hr1⟩ := scrapePosts_eq beh₁ m₁ [] r₁ s₁ g1
  obtain ⟨full₂, hf2, hr2⟩ := scrapePosts_eq beh₂ m₂ s₁ r₂ s₂ g2
  have inv1 := scrapeLoopF_inv beh₁ m₁ (6 * m₁ + 6) 0 [] [] 0 full₁ s₁ hf1 (by simp) (by simp)
  have inv2 := scrapeLoopF_inv beh₂ m₂ (6 * m₂ + 6) 0 [] s₁ 0 full₂ s₂ hf2 (by simp) (by simp)
  have hp1 : p.postId ∈ s₁ := inv1.2.1 p (List.take_subset _ _ (hr1 ▸ hp : p ∈ full₁.take m₁))
  have hq1 : ¬ q.postId ∈ s₁ := by
    rcases inv2.2.2.2 q (List.take_subset _ _ (hr2 ▸ hq : q ∈ full₂.take m₂)) with hin | hnot
    · simp at hin
    · exact hnot
  intro hc
  exact hq1 (hc ▸ hp1)

/-- Witness for C10: two completed calls on one instance, the second
rediscovering the first call's record alongside a fresh one. -/
theorem C10_cross_call_dedup_w : (p1 : Post).postId ≠ (p2 : Post).postId :=
  C10_cross_call_dedup (fun _ _ => GotoResult.text (List.replicate 101 'a'))
    (fun _ _ => GotoResult.text (List.replicate 101 'a'))
    (fun _ => [p1]) (fun _ => [p1, p2]) 5 5
    [p1] ["1".data] [p2] ["2".data, "1".data]
    rfl rfl p1 p2 (by decide) (by decide)

/-- C4: the count parser is a total function that never raises, mapping
`"1.2K"` to 1200, `"3M"` to 3000000, `"500"` to 500, `""` to 0 and
`"2.5B"` to 2500000000, stripping separators and whitespace, uppercasing
(so `"1.2k"` and `"1,234"` parse too), and yielding 0 on unparsable input;
the `main.py` variant agrees on all the spec's examples. -/
theorem C4_count_values :
    parseCount "1.2K".data = 1200 ∧ parseCount "3M".data = 3000000 ∧
      parseCount "500".data = 500 ∧ parseCount "".data = 0 ∧
      parseCount "2.5B".data = 2500000000 ∧ parseCount "no count".data = 0 ∧
      parseCount "1,234".data = 1234 ∧ parseCount "1.2k".data = 1200 ∧
      mainParseCount "1.2K".data = 1200 ∧ mainParseCount "3M".data = 3000000 ∧
      mainParseCount "500".data = 500 ∧ mainParseCount "".data = 0 ∧
      mainParseCount "2.5B".data = 2500000000 := by
  decide

/-- C5 counterexample: the input `"today"` belongs to none of the claim's
relative families (it is neither `"yesterday"` nor of the form
`"N day(s) ago"`) and matches no absolute date format (the `strptime`
oracle rejects everything here), so under the claim the parser must return
null — but the code's substring check finds `day` inside `today` and
returns `now − 1 day` (here `1000000 − 86400`). -/
theorem C5_time_cex :
    parseFacebookTime (fun _ _ => none) 1000000 "today".data = some 913600 := by
  decide

/-- C5 amended: the ordered case analysis is by substring containment on
the lowercased input with the amount defaulting to 1 when no number
precedes the keyword: the just-now family maps to now, `minute`/`hour`/
`day`-or-`yesterday`/`week` inputs map to the corresponding relative
offsets (so `"today"` maps to `now − 1 day` rather than falling through),
and only keyword-free inputs reach the fixed ordered list of absolute
date formats, whose first success wins, with null when all fail. -/
theorem C5_time_amended (strp : List Char → List Char → Option Int) (now : Int) :
    parseFacebookTime strp now "just now".data = some now ∧
      parseFacebookTime strp now "2 hours ago".data = some (now - 7200) ∧
      parseFacebookTime strp now "5 minutes ago".data = some (now - 300) ∧
      parseFacebookTime strp now "yesterday".data = some (now - 86400) ∧
      parseFacebookTime strp now "4 days ago".data = some (now - 345600) ∧
      parseFacebookTime strp now "3 weeks ago".data = some (now - 1814400) ∧
      parseFacebookTime strp now "today".data = some (now - 86400) ∧
      parseFacebookTime
          (fun _ p => if p = "%B %d at %I:%M %p".data then some 200
            else if p = "%m/%d/%Y".data then some 300 else none) 0 "garbage".data = some 200 ∧
      parseFacebookTime (fun _ _ => none) 0 "garbage".data = none :=
  ⟨rfl, rfl, rfl, rfl, rfl, rfl, rfl, by decide, by decide⟩

/-- A matched literal-plus-run pattern always captures a nonempty run. -/
theorem searchLitRun_ne_nil (lit : List Char) (p : Char → Bool) :
    ∀ (s r : List Char), searchLitRun lit p s = some r → r ≠ [] := by
  intro s
  induction s with
  | nil => intro r h; simp [searchLitRun] at h
  | cons c rest ih =>
    intro r h
    rw [searchLitRun] at h
    by_cases hc : lit.isPrefixOf (c :: rest) ∧ ((c :: rest).drop lit.length).takeWhile p ≠ []
    · rw [if_pos hc] at h
      cases h
      exact hc.2
    · rw [if_neg hc] at h
      exact ih r h

/-- A matched `story_fbid=` capture is nonempty. -/
theorem searchFbidNoNl_ne_nil :
    ∀ (s r : List Char), searchFbidNoNl s = some r → r ≠ [] := by
  intro s
  induction s with
  | nil => intro r h; simp [searchFbidNoNl] at h
  | cons c rest ih =>
    intro r h
    rw [searchFbidNoNl] at h
    by_cases hc : ("story_fbid=".data).isPrefixOf (c :: rest) ∧
        ((c :: rest).drop 11).takeWhile isAsciiDigit ≠ []
    · rw [if_pos hc] at h
      cases h
      exact hc.2
    · rw [if_neg hc] at h
      by_cases hn : c = '\n'
      · rw [if_pos hn] at h; cases h
      · rw [if_neg hn] at h; exact ih r h

/-- A matched `/story.php` capture is nonempty. -/
theorem searchStoryPhp_ne_nil :
    ∀ (s r : List Char), searchStoryPhp s = some r → r ≠ [] := by
  intro s
  induction s with
  | nil => intro r h; simp [searchStoryPhp] at h
  | cons c rest ih =>
    intro r h
    rw [searchStoryPhp] at h
    by_cases hc : ("/story.php".data).isPrefixOf (c :: rest)
    · rw [if_pos hc] at h
      cases hf : searchFbidNoNl ((c :: rest).drop 10) with
      | some ds => rw [hf] at h; cases h; exact searchFbidNoNl_ne_nil _ _ hf
      | none => rw [hf] at h; exact ih r h
    · rw [if_neg hc] at h
      exact ih r h

/-- The fuelled digit printer never erases an already nonempty
accumulator. -/
theorem natDigitsF_ne_nil : ∀ (f n : Nat) (acc : List Char), acc ≠ [] →
    natDigitsF f n acc ≠ [] := by
  intro f
  induction f with
  | zero => intro n acc h; simpa [natDigitsF] using h
  | succ f ih =>
    intro n acc h
    rw [natDigitsF]
    by_cases hn : n < 10
    · rw [if_pos hn]; simp
    · rw [if_neg hn]; exact ih _ _ (by simp)

/-- The decimal representation of a natural number is nonempty. -/
theorem natRepr_ne_nil (n : Nat) : natRepr n ≠ [] := by
  show natDigitsF (63 + 1) n [] ≠ []
  rw [natDigitsF]
  by_cases hn : n < 10
  · rw [if_pos hn]; simp
  · rw [if_neg hn]; exact natDigitsF_ne_nil 63 _ _ (by simp)

/-- The last-ten slice of a nonempty string is nonempty. -/
theorem lastTen_ne_nil (s : List Char) (h : s ≠ []) : lastTen s ≠ [] := by
  intro hc
  have h1 : (lastTen s).length = s.length - (s.length - 10) := by
    simp [lastTen]
  have h2 : s.length ≠ 0 := fun h0 => h (List.length_eq_zero.mp h0)
  rw [hc] at h1
  simp at h1
  omega

/-- The synthetic hash id is always nonempty. -/
theorem syntheticId_ne_nil (url : List Char) : syntheticId url ≠ [] :=
  lastTen_ne_nil _ (natRepr_ne_nil _)

/-- The post-id extractor always yields a nonempty id on a nonempty URL:
every pattern captures a nonempty run and the synthetic hash id is
nonempty. -/
theorem extractIdFromUrl_post (url : List Char) (hu : url ≠ []) :
    ∃ i, extractIdFromUrl url IdType.post = some i ∧ i ≠ [] := by
  rw [extractIdFromUrl, if_neg hu]
  cases h1 : searchLitRun "/posts/".data isAsciiDigit url with
  | some ds => exact ⟨ds, by simp [h1], searchLitRun_ne_nil _ _ _ _ h1⟩
  | none =>
    cases h2 : searchLitRun "/permalink/".data isAsciiDigit url with
    | some ds => exact ⟨ds, by simp [h1, h2], searchLitRun_ne_nil _ _ _ _ h2⟩
    | none =>
      cases h3 : searchLitRun "story_fbid=".data isAsciiDigit url with
      | some ds => exact ⟨ds, by simp [h1, h2, h3], searchLitRun_ne_nil _ _ _ _ h3⟩
      | none =>
        cases h4 : searchLitRun "pfbid".data isAsciiAlnum url with
        | some run =>
          by_cases hd : run ≠ [] ∧ run.all isAsciiDigit
          · refine ⟨run, ?_, hd.1⟩
            simp only [h1, h2, h3, h4]
            rw [if_pos hd]
          · refine ⟨"pfbid".data ++ run, ?_, by simp⟩
            simp only [h1, h2, h3, h4]
            rw [if_neg hd]
        | none =>
          cases h5 : searchStoryPhp url with
          | some ds =>
            exact ⟨ds, by simp [h1, h2, h3, h4, h5], searchStoryPhp_ne_nil _ _ h5⟩
          | none =>
            exact ⟨syntheticId url, by simp [h1, h2, h3, h4, h5], syntheticId_ne_nil url⟩

/-- The derived post id is always nonempty. -/
theorem derivePostId_ne_nil (postUrl : List Char) : derivePostId postUrl ≠ [] := by
  rw [derivePostId]
  cases h : extractIdFromUrl postUrl IdType.post with
  | none => exact lastTen_ne_nil _ (natRepr_ne_nil _)
  | some i =>
    by_cases hi : i = []
    · simpa [hi] using lastTen_ne_nil _ (natRepr_ne_nil (pyHash postUrl).natAbs)
    · simp [hi]

/-- Every record `_extract_single_post` emits carries a nonempty URL and a
nonempty post id. -/
theorem extractSinglePost_fields (e : RawElement) (p : Post)
    (h : extractSinglePost e = some p) : p.url ≠ [] ∧ p.postId ≠ [] := by
  rw [extractSinglePost] at h
  cases hd : discoverPostUrl e with
  | none => rw [hd] at h; cases h
  | some u =>
    cases u with
    | nil => rw [hd] at h; cases h
    | cons c u' =>
      rw [hd] at h
      simp only [Option.some.injEq] at h
      subst h
      exact ⟨by simp, derivePostId_ne_nil _⟩

/-- C9: every record the extraction pipeline emits has a nonempty post URL
and a nonempty `postId` (an element without a discoverable URL is silently
dropped and pattern-less URLs receive the synthetic hash id), and records
of a pass are filtered on a truthy `postId`, so the deduplication
fingerprint is defined for every aggregated record. -/
theorem C9_nonempty_ids (e : RawElement) (p : Post)
    (strats : List (Except Unit (List RawElement))) (q : Post) (e0 : RawElement)
    (h1 : extractSinglePost e = some p)
    (h2 : q ∈ extractPostsFromPage strats)
    (h3 : e0.postLinks = []) (h4 : e0.fallbackLinks = []) :
    (p.url ≠ [] ∧ p.postId ≠ []) ∧ (q.url ≠ [] ∧ q.postId ≠ []) ∧
      extractSinglePost e0 = none := by
  refine ⟨extractSinglePost_fields e p h1, ?_, ?_⟩
  · rw [extractPostsFromPage, extractRecords] at h2
    obtain ⟨e', _, he'⟩ := List.mem_filterMap.mp h2
    cases hs : extractSinglePost e' with
    | none => rw [hs] at he'; cases he'
    | some p' =>
      rw [hs] at he'
      by_cases hp' : p'.postId = []
      · simp [hp'] at he'
      · simp [hp'] at he'
        subst he'
        exact extractSinglePost_fields e' _ hs
  · rw [extractSinglePost]
    have : discoverPostUrl e0 = none := by
      rw [discoverPostUrl, getPostUrl, h3, h4]
      rfl
    rw [this]

/-- Witness for C9 at a concrete element with a clean permalink, a
one-strategy page, and an element with no links at all. -/
theorem C9_nonempty_ids_w :
    ((postW.url ≠ [] ∧ postW.postId ≠ []) ∧ (postW.url ≠ [] ∧ postW.postId ≠ []) ∧
      extractSinglePost { } = none) :=
  C9_nonempty_ids elemW postW [Except.ok [elemW]] postW { } (by decide) (by decide) rfl rfl

/-- The fuelled `__tn__` scan maps the empty string to itself at any
fuel. -/
theorem subTnF_nil : ∀ f, subTnF f [] = []
  | 0 => rfl
  | _ + 1 => rfl

/-- Prefix matching cannot reach past an appended character that does not
occur in the needle. -/
theorem isPrefixOf_append_notMem (lit : List Char) (c : Char) (w : List Char)
    (hc : ¬ c ∈ lit) : ∀ u : List Char, lit.isPrefixOf (u ++ c :: w) = lit.isPrefixOf u := by
  induction lit with
  | nil => intro u; simp [List.isPrefixOf]
  | cons l lt ih =>
    intro u
    cases u with
    | nil =>
      simp only [List.nil_append, List.isPrefixOf_cons₂, List.isPrefixOf_cons_nil]
      have hlc : (l == c) = false := by
        simp only [beq_eq_false_iff_ne, ne_eq]
        intro h
        exact hc (h ▸ List.mem_cons_self _ _)
      simp [hlc]
    | cons a u' =>
      simp only [List.cons_append, List.isPrefixOf_cons₂]
      rw [ih (fun h => hc (List.mem_cons_of_mem _ h)) u']

/-- Dropping the `[^&]*` run of a string without `&` consumes it all. -/
theorem dropWhile_amp_nil (v : List Char) (hv : ¬ '&' ∈ v) :
    List.dropWhile (fun d => d != '&') v = [] :=
  List.dropWhile_eq_nil_iff.mpr (fun x hx => by
    simp only [bne_iff_ne, ne_eq]
    intro h
    exact hv (h ▸ hx))

/-- A bare `&__tn__=v` tracking suffix (with `&`-free value) is stripped
entirely. -/
theorem subTnF_amp_lit (v : List Char) (hv : ¬ '&' ∈ v) :
    ∀ f, subTnF (f + 1) ('&' :: ("__tn__=".data ++ v)) = [] := by
  intro f
  rw [subTnF]
  rw [if_pos ⟨Or.inr rfl, List.isPrefixOf_iff_prefix.mpr (List.prefix_append _ _)⟩]
  rw [List.drop_left' (show ("__tn__=".data).length = 7 from rfl)]
  rw [dropWhile_amp_nil v hv]
  exact subTnF_nil f

/-- Appending an `&`-separated `__tn__` tracking parameter does not change
the result of the `__tn__` substitution: the appended parameter is a fresh
match stripped whole, no match can span the boundary (the appendix starts
with `&`, which does not occur in the literal), and runs from matches
inside the original string stop at the boundary `&`. -/
theorem subTnF_append (v : List Char) (hv : ¬ '&' ∈ v) :
    ∀ (n : Nat) (u : List Char) (f g : Nat), u.length < g →
      (u ++ '&' :: ("__tn__=".data ++ v)).length < f →
      u.length ≤ n → subTnF f (u ++ '&' :: ("__tn__=".data ++ v)) = subTnF g u := by
  intro n
  induction n with
  | zero =>
    intro u f g hg hf hn
    have hu : u = [] := List.length_eq_zero.mp (Nat.le_zero.mp hn)
    subst hu
    cases f with
    | zero => simp at hf
    | succ f =>
      cases g with
      | zero => simp at hg
      | succ g =>
        rw [subTnF_nil, List.nil_append]
        exact subTnF_amp_lit v hv f
  | succ n ih =>
    intro u f g hg hf hn
    cases u with
    | nil =>
      cases f with
      | zero => simp at hf
      | succ f =>
        cases g with
        | zero => simp at hg
        | succ g =>
          rw [subTnF_nil, List.nil_append]
          exact subTnF_amp_lit v hv f
    | cons c u' =>
      cases f with
      | zero => simp at hf
      | succ f =>
        cases g with
        | zero => simp at hg
        | succ g =>
          rw [List.cons_append, subTnF, subTnF]
          rw [isPrefixOf_append_notMem _ '&' _ (by decide) u']
          by_cases hcnd : (c = '?' ∨ c = '&') ∧ ("__tn__=".data).isPrefixOf u'
          · rw [if_pos hcnd, if_pos hcnd]
            have h7 : 7 ≤ u'.length := by
              have := (List.isPrefixOf_iff_prefix.mp hcnd.2).length_le
              simpa using this
            rw [List.drop_append_of_le_length h7]
            by_cases hamp : ∀ x ∈ u'.drop 7, (x != '&') = true
            · rw [List.dropWhile_append_of_pos hamp]
              have hdw : List.dropWhile (fun d => d != '&') (u'.drop 7) = [] :=
                List.dropWhile_eq_nil_iff.mpr hamp
              rw [hdw, subTnF_nil]
              cases f with
              | zero =>
                exfalso
                simp only [List.length_cons, List.length_append] at hf
                omega
              | succ f => exact subTnF_amp_lit v hv f
            · rw [List.dropWhile_append]
              have hne : ¬ ((u'.drop 7).dropWhile (fun d => d != '&')).isEmpty = true := by
                simp only [List.isEmpty_iff]
                intro hnil
                exact hamp (List.dropWhile_eq_nil_iff.mp hnil)
              rw [if_neg hne]
              have h1 : ((u'.drop 7).dropWhile (fun d => d != '&')).length ≤ u'.length := by
                refine le_trans (List.dropWhile_sublist _).length_le ?_
                simp
              apply ih
              · simp only [List.length_cons] at hg
                omega
              · simp only [List.length_cons, List.length_append, List.length_nil] at hf ⊢
                omega
              · simp only [List.length_cons] at hn
                omega
          · rw [if_neg hcnd, if_neg hcnd]
            congr 1
            apply ih
            · have := Nat.lt_of_succ_lt_succ hg
              simpa using this
            · have := Nat.lt_of_succ_lt_succ hf
              simpa using this
            · simp only [List.length_cons] at hn
              omega

/-- The `__tn__` substitution with its own fuel is invariant under an
appended `&`-separated tracking parameter. -/
theorem subTn_append (v : List Char) (hv : ¬ '&' ∈ v) (u : List Char) :
    subTn (u ++ '&' :: ("__tn__=".data ++ v)) = subTn u :=
  subTnF_append v hv u.length u ((u ++ '&' :: ("__tn__=".data ++ v)).length + 1)
    (u.length + 1) (Nat.lt_succ_self _) (Nat.lt_succ_self _) le_rfl

/-- Normalization of a URL starting with `/` resolves it against the
canonical domain before stripping. -/
theorem normalize_cons_slash (u : List Char) :
    normalizeFacebookUrl ('/' :: u) = subCft (subTn (fbDomain ++ '/' :: u)) := by
  rw [normalizeFacebookUrl, if_neg (List.cons_ne_nil _ _)]
  rfl

/-- Normalization of a URL not starting with `/` just strips tracking
parameters. -/
theorem normalize_cons_ne (c : Char) (u : List Char) (hc : c ≠ '/') :
    normalizeFacebookUrl (c :: u) = subCft (subTn (c :: u)) := by
  rw [normalizeFacebookUrl, if_neg (List.cons_ne_nil _ _)]
  have hh : ¬ ((c :: u).head? = some '/') := by
    simp only [List.head?_cons, Option.some.injEq]
    exact hc
  simp only [if_neg hh]

/-- URL normalization is invariant under an appended `&`-separated
`__tn__` tracking parameter. -/
theorem normalize_tracking (u v : List Char) (hv : ¬ '&' ∈ v) :
    normalizeFacebookUrl (u ++ '&' :: ("__tn__=".data ++ v)) = normalizeFacebookUrl u := by
  cases u with
  | nil =>
    rw [List.nil_append]
    rw [normalize_cons_ne '&' _ (by decide)]
    have h1 : subTn ('&' :: ("__tn__=".data ++ v)) = [] := subTnF_amp_lit v hv _
    rw [h1]
    rfl
  | cons c u' =>
    by_cases hc : c = '/'
    · subst hc
      rw [List.cons_append, normalize_cons_slash, normalize_cons_slash]
      have hassoc : fbDomain ++ '/' :: (u' ++ '&' :: ("__tn__=".data ++ v)) =
          (fbDomain ++ '/' :: u') ++ '&' :: ("__tn__=".data ++ v) := by
        simp
      rw [hassoc, subTn_append v hv]
    · rw [List.cons_append, normalize_cons_ne c _ hc, normalize_cons_ne c _ hc]
      rw [show c :: (u' ++ '&' :: ("__tn__=".data ++ v)) =
            (c :: u') ++ '&' :: ("__tn__=".data ++ v) from rfl]
      rw [subTn_append v hv]

/-- C8 counterexample: two URLs of the same logical post differing only in
a leading `__tn__` tracking parameter.  Stripping `?__tn__=R` from the
first leaves the remaining query joined by `&` instead of `?`, so the two
normalized URLs differ; neither matches a post-id pattern, so both fall to
the synthetic hash of their (different) normalized URLs and the derived
canonical ids differ — against the claim that they must coincide. -/
theorem C8_url_cex :
    normalizeFacebookUrl "https://www.facebook.com/page/posts/?__tn__=R&q=1".data =
        "https://www.facebook.com/page/posts/&q=1".data ∧
      normalizeFacebookUrl "https://www.facebook.com/page/posts/?q=1".data =
        "https://www.facebook.com/page/posts/?q=1".data ∧
      canonicalPostId "https://www.facebook.com/page/posts/?__tn__=R&q=1".data ≠
        canonicalPostId "https://www.facebook.com/page/posts/?q=1".data := by
  exact ⟨by decide, by decide, by decide⟩

/-- C8 amended: the normalizer resolves relative paths against the
canonical domain and strips the `__tn__`/`__cft__[...]` tracking
parameters, the id extractor applies its ordered patterns with first match
winning, and two URLs of the same post differing only in a non-leading
(`&`-separated) `__tn__` tracking parameter derive the same canonical id;
URLs whose id comes from a pattern agree even with a leading tracking
parameter, but pattern-less URLs differing in a leading `?`-position
parameter may hash to different synthetic ids. -/
theorem C8_url_amended (u v : List Char) (hv : ¬ '&' ∈ v) :
    canonicalPostId (u ++ '&' :: ("__tn__=".data ++ v)) = canonicalPostId u ∧
      normalizeFacebookUrl "/posts/123".data = "https://www.facebook.com/posts/123".data ∧
      canonicalPostId "https://www.facebook.com/a/posts/123?__tn__=-R".data =
        some "123".data ∧
      canonicalPostId "https://www.facebook.com/a/posts/123".data = some "123".data := by
  refine ⟨?_, by decide, by decide, by decide⟩
  rw [canonicalPostId, canonicalPostId, normalize_tracking u v hv]

/-- Witness for the amended C8 at a concrete URL and tracking value. -/
theorem C8_url_amended_w :
    canonicalPostId ("https://www.facebook.com/x".data ++ '&' :: ("__tn__=".data ++ "R".data)) =
        canonicalPostId "https://www.facebook.com/x".data ∧
      normalizeFacebookUrl "/posts/123".data = "https://www.facebook.com/posts/123".data ∧
      canonicalPostId "https://www.facebook.com/a/posts/123?__tn__=-R".data =
        some "123".data ∧
      canonicalPostId "https://www.facebook.com/a/posts/123".data = some "123".data :=
  C8_url_amended "https://www.facebook.com/x".data "R".data (by decide)

end FB
